import Mathlib

/-!
Shallow embedding of `src/pglogical_relmetacache.c` (pglogical's relation
metadata cache) and proofs about it.

The C file keeps two process-wide globals: `RelMetaCache` (a dynahash `HTAB *`,
`NULL` when no decoding session's cache is bound) and `callback_registered`
(whether the relcache invalidation callback has been registered with the host).
Hash-table entries are `struct PGLRelMetaCacheEntry` with fields `relid` (the
key), `is_cached` (the spec's `metadata_sent`) and `is_valid` (the spec's
`valid`).

The dynahash table is modelled as an association list of entries keyed by
`relid`; `hash_search(..., HASH_FIND, ...)` is first-match lookup,
`HASH_REMOVE` removes the first matching entry, and a pointer write through the
entry returned by `HASH_FIND` is an in-place update of that first match.
`hash_search(..., HASH_ENTER, ...)` appends a new entry when the key is absent;
dynahash initialises only the key bytes of a new entry, so the non-key fields
of a freshly entered entry hold indeterminate memory until the caller assigns
them.  `pglogical_cache_relmeta` (lines 152-156) assigns only `is_cached`;
the indeterminate initial value of `is_valid` is therefore made explicit as a
parameter `uninit_is_valid`.
-/

namespace PGLRelMeta

/-- Resource (relation) identifier, `Oid` in the C source. -/
abbrev Oid := Nat

/-- `struct PGLRelMetaCacheEntry`: the cached state for one relation.
`is_cached` is the spec's `metadata_sent` flag, `is_valid` the spec's `valid`
flag. -/
structure PGLRelMetaCacheEntry where
  relid : Oid
  is_cached : Bool
  is_valid : Bool
deriving Repr, DecidableEq

/-- The dynahash table `RelMetaCache` points to, as an association list of
entries keyed by `relid`. -/
abbrev HTAB := List PGLRelMetaCacheEntry

/-- `hash_search(tab, &relid, HASH_FIND, NULL)`: first entry whose key equals
`relid`, or `none`. -/
def hash_find : HTAB → Oid → Option PGLRelMetaCacheEntry
  | [], _ => none
  | e :: es, relid => if e.relid = relid then some e else hash_find es relid

/-- `hash_search(tab, &relid, HASH_REMOVE, NULL)`: drop the first entry whose
key equals `relid` (dynahash stores at most one entry per key). -/
def hash_remove : HTAB → Oid → HTAB
  | [], _ => []
  | e :: es, relid => if e.relid = relid then es else e :: hash_remove es relid

/-- The write `hentry->is_valid = false` performed through the pointer returned
by `HASH_FIND`: update the first entry whose key equals `relid`, leaving every
other field and every other entry untouched. -/
def set_invalid : HTAB → Oid → HTAB
  | [], _ => []
  | e :: es, relid =>
      if e.relid = relid then { e with is_valid := false } :: es
      else e :: set_invalid es relid

/-- The process-wide globals of the C file (lines 33 and 39) together with a
counter of how many times `CacheRegisterRelcacheCallback` has been invoked on
the host, which the C host tracks implicitly in its callback list. -/
structure GlobalState where
  RelMetaCache : Option HTAB
  callback_registered : Bool
  host_registrations : Nat
deriving Repr, DecidableEq

/-- `pglogical_init_relmetacache` (lines 49-93): create a fresh empty hash
table, bind it to the global handle, and register the invalidation callback
with the host if and only if it has not been registered before.  (The
`Assert(RelMetaCache == NULL)` on line 55 is compiled out of production builds
and does not affect the state transition.) -/
def pglogical_init_relmetacache (g : GlobalState) : GlobalState :=
  let g1 : GlobalState := { g with RelMetaCache := some [] }
  if g1.callback_registered then g1
  else { g1 with
           host_registrations := g1.host_registrations + 1,
           callback_registered := true }

/-- `relmeta_cache_callback` (lines 99-129): if no table is bound, do nothing;
otherwise look the relid up with `HASH_FIND` and, when an entry is found, set
its `is_valid` to `false` through the returned pointer.  It is a total
function: a notification can never fail. -/
def relmeta_cache_callback (g : GlobalState) (relid : Oid) : GlobalState :=
  match g.RelMetaCache with
  | none => g
  | some tab =>
      match hash_find tab relid with
      | none => g
      | some _ => { g with RelMetaCache := some (set_invalid tab relid) }

/-- Result of `pglogical_cache_relmeta`: the table after the call (the call may
insert an entry), the entry stored into `*entry`, and the returned `bool`. -/
structure CacheRelmetaResult where
  tab : HTAB
  entry : PGLRelMetaCacheEntry
  hit : Bool
deriving Repr, DecidableEq

/-- `pglogical_cache_relmeta` (lines 140-162) on the bound table:
`hash_search(..., HASH_ENTER, &found)`; when the key was absent a new entry is
created whose key dynahash fills in and whose `is_cached` the function sets to
`false` — `is_valid` is never assigned on this path, so it keeps the
indeterminate memory value `uninit_is_valid`.  The function returns
`hentry->is_cached` and stores `hentry` into `*entry`. -/
def pglogical_cache_relmeta (tab : HTAB) (relid : Oid)
    (uninit_is_valid : Bool) : CacheRelmetaResult :=
  match hash_find tab relid with
  | some hentry => ⟨tab, hentry, hentry.is_cached⟩
  | none =>
      let hentry : PGLRelMetaCacheEntry :=
        { relid := relid, is_cached := false, is_valid := uninit_is_valid }
      ⟨tab ++ [hentry], hentry, hentry.is_cached⟩

/-- `pglogical_destroy_relmetacache` (lines 169-177): when a table is bound,
`hash_destroy` it and reset the global handle to `NULL`; otherwise do
nothing. -/
def pglogical_destroy_relmetacache (g : GlobalState) : GlobalState :=
  match g.RelMetaCache with
  | none => g
  | some _ => { g with RelMetaCache := none }

/-- One iteration of the prune loop body (lines 195-201) for the currently
visited entry `hentry`: if it is invalid, remove its key with `HASH_REMOVE`,
and if the removal reports the key absent, fail with
`elog(ERROR, "hash table corrupted")`. -/
def prune_step (tab : HTAB) (hentry : PGLRelMetaCacheEntry) :
    Except String HTAB :=
  if hentry.is_valid then Except.ok tab
  else
    match hash_find tab hentry.relid with
    | none => Except.error "hash table corrupted"
    | some _ => Except.ok (hash_remove tab hentry.relid)

/-- The `while (hash_seq_search ...)` loop of `pglogical_prune_relmetacache`:
the sequential scan visits every entry present when the scan started (removing
the just-visited entry is explicitly safe in dynahash, and the loop removes no
other entry and inserts none), so the loop folds `prune_step` over the snapshot
of entries. -/
def prune_loop : HTAB → List PGLRelMetaCacheEntry → Except String HTAB
  | tab, [] => Except.ok tab
  | tab, e :: es =>
      match prune_step tab e with
      | Except.ok tab2 => prune_loop tab2 es
      | Except.error msg => Except.error msg

/-- `pglogical_prune_relmetacache` (lines 185-203) on the bound table. -/
def pglogical_prune_relmetacache (tab : HTAB) : Except String HTAB :=
  prune_loop tab tab

/-- `pglogical_prune_relmetacache` as called, reading the global handle: unlike
`relmeta_cache_callback` and `pglogical_destroy_relmetacache` it has no
`RelMetaCache == NULL` guard and passes the handle straight to
`hash_seq_init` (line 191), which dereferences it — undefined behaviour when
the handle is `NULL`, modelled as `none`. -/
def pglogical_prune_global (g : GlobalState) :
    Option (Except String GlobalState) :=
  match g.RelMetaCache with
  | none => none
  | some tab =>
      some ((pglogical_prune_relmetacache tab).map
        (fun tab2 => { g with RelMetaCache := some tab2 }))

/-- The table has at most one entry per key — dynahash's invariant for a table
built by `HASH_ENTER`. -/
def keysNodup (tab : HTAB) : Prop :=
  (tab.map (fun e => e.relid)).Nodup

instance (tab : HTAB) : Decidable (keysNodup tab) := by
  unfold keysNodup
  exact List.nodupDecidable _

/-- Observation of a micro-step of teardown: is the global handle still bound,
and has `hash_destroy` already run on the store? -/
structure TeardownObs where
  handleBound : Bool
  storeDestroyed : Bool
deriving Repr, DecidableEq

/-- The sequence of observable intermediate states of
`pglogical_destroy_relmetacache`: entry state; after `hash_destroy(RelMetaCache)`
(line 174), where the handle still points at the destroyed table; after
`RelMetaCache = NULL` (line 175).  When no table is bound the function is a
single no-op step. -/
def pglogical_destroy_trace (g : GlobalState) : List TeardownObs :=
  match g.RelMetaCache with
  | none => [⟨false, false⟩]
  | some _ => [⟨true, false⟩, ⟨true, true⟩, ⟨false, true⟩]

/-- Claim C1: the spec requires that after `relmeta_cache_callback(7)` marks
the entry invalid, the next `pglogical_cache_relmeta` on relid 7 reports a
stale entry, never a hit.  Evaluating the code at this input: the callback
does set `is_valid := false`, but the subsequent lookup still returns `true`
(a hit), because line 161 returns `hentry->is_cached` without consulting
`is_valid`. -/
theorem claim_C1 :
    (relmeta_cache_callback
        { RelMetaCache := some [⟨7, true, true⟩],
          callback_registered := true,
          host_registrations := 1 } 7).RelMetaCache
      = some [⟨7, true, false⟩] ∧
    (pglogical_cache_relmeta [⟨7, true, false⟩] 7 true).hit = true ∧
    (pglogical_cache_relmeta [⟨7, true, false⟩] 7 true).entry.is_valid
      = false := by
  refine ⟨rfl, rfl, rfl⟩

/-- Claim C2: the spec requires a freshly created entry to have
`metadata_sent = false` and `valid = true`.  Evaluating the code on a miss:
`was_preexisting` and `metadata_sent` are `false` as claimed, but `is_valid`
is whatever the uninitialised memory held — the creation path (lines 152-156)
assigns only `is_cached`, so the fresh entry's `is_valid` equals the
indeterminate value, not necessarily `true`. -/
theorem claim_C2 :
    (pglogical_cache_relmeta [] 1 false).hit = false ∧
    (pglogical_cache_relmeta [] 1 false).entry.is_cached = false ∧
    (pglogical_cache_relmeta [] 1 false).entry.is_valid = false ∧
    (pglogical_cache_relmeta [] 1 true).entry.is_valid = true := by
  refine ⟨rfl, rfl, rfl, rfl⟩

/-- The two non-handle globals are untouched by teardown. -/
lemma destroy_preserves_registration (g : GlobalState) :
    (pglogical_destroy_relmetacache g).callback_registered
        = g.callback_registered ∧
    (pglogical_destroy_relmetacache g).host_registrations
        = g.host_registrations := by
  unfold pglogical_destroy_relmetacache
  cases g.RelMetaCache <;> simp

/-- After teardown the global handle is `NULL`, whether or not a table was
bound on entry. -/
lemma destroy_RelMetaCache (g : GlobalState) :
    (pglogical_destroy_relmetacache g).RelMetaCache = none := by
  unfold pglogical_destroy_relmetacache
  cases h : g.RelMetaCache <;> simp [h]

/-- A notification delivered while the handle is `NULL` takes no action. -/
lemma callback_of_unbound (g : GlobalState) (relid : Oid)
    (h : g.RelMetaCache = none) : relmeta_cache_callback g relid = g := by
  simp [relmeta_cache_callback, h]

/-- Teardown with no bound table is a no-op. -/
lemma destroy_of_unbound (g : GlobalState) (h : g.RelMetaCache = none) :
    pglogical_destroy_relmetacache g = g := by
  unfold pglogical_destroy_relmetacache
  rw [h]

/-- Claim C9: on a preexisting id, `pglogical_cache_relmeta` takes the
`found` branch (lines 152-156 skipped): the table is unchanged, the returned
entry is the stored one with every field as it was, and the returned flag is
that entry's `is_cached`. -/
theorem claim_C9 (tab : HTAB) (relid : Oid) (uninit_is_valid : Bool)
    (e : PGLRelMetaCacheEntry) (h : hash_find tab relid = some e) :
    pglogical_cache_relmeta tab relid uninit_is_valid = ⟨tab, e, e.is_cached⟩ := by
  simp [pglogical_cache_relmeta, h]

/-- Witness for C9 at a concrete table. -/
theorem claim_C9_witness :
    hash_find [⟨3, true, true⟩] 3 = some ⟨3, true, true⟩ ∧
    pglogical_cache_relmeta [⟨3, true, true⟩] 3 false
      = ⟨[⟨3, true, true⟩], ⟨3, true, true⟩, true⟩ :=
  ⟨rfl, claim_C9 [⟨3, true, true⟩] 3 false ⟨3, true, true⟩ rfl⟩

/-- Claim C6: a notification arriving with no bound store (line 109-110), or
naming an id with no entry in the bound store (line 127 guard), returns
without taking any action: the handle, the registration flag and every entry
are exactly as before.  (`relmeta_cache_callback` is a total function, so
"returns without error" holds by construction.) -/
theorem claim_C6 (g : GlobalState) (relid : Oid) :
    (g.RelMetaCache = none → relmeta_cache_callback g relid = g) ∧
    (∀ tab, g.RelMetaCache = some tab → hash_find tab relid = none →
        relmeta_cache_callback g relid = g) := by
  constructor
  · intro h
    exact callback_of_unbound g relid h
  · intro tab h hf
    simp [relmeta_cache_callback, h, hf]

/-- Witness for C6: a notification with no store bound, and one for an id
absent from a bound store, both leave the state unchanged. -/
theorem claim_C6_witness :
    (({ RelMetaCache := none, callback_registered := true,
        host_registrations := 1 } : GlobalState).RelMetaCache = none →
      relmeta_cache_callback
        { RelMetaCache := none, callback_registered := true,
          host_registrations := 1 } 5
        = { RelMetaCache := none, callback_registered := true,
            host_registrations := 1 }) ∧
    (∀ tab,
      ({ RelMetaCache := some [⟨1, true, true⟩], callback_registered := true,
         host_registrations := 1 } : GlobalState).RelMetaCache = some tab →
      hash_find tab 2 = none →
      relmeta_cache_callback
        { RelMetaCache := some [⟨1, true, true⟩], callback_registered := true,
          host_registrations := 1 } 2
        = { RelMetaCache := some [⟨1, true, true⟩], callback_registered := true,
            host_registrations := 1 }) :=
  ⟨(claim_C6 _ 5).1, (claim_C6 _ 2).2⟩

/-- Claim C10: the prune entry point dereferences the global handle with no
`NULL` guard (line 191 passes it straight to `hash_seq_init`), so it is
defined exactly when a store is bound; calling it right after teardown hits
the unguarded branch.  The notification callback, by contrast, is safe on the
torn-down state, and so is a second teardown. -/
theorem claim_C10 (g : GlobalState) :
    ((pglogical_prune_global g).isSome ↔ g.RelMetaCache.isSome) ∧
    pglogical_prune_global (pglogical_destroy_relmetacache g) = none ∧
    (∀ relid, relmeta_cache_callback (pglogical_destroy_relmetacache g) relid
        = pglogical_destroy_relmetacache g) ∧
    pglogical_destroy_relmetacache (pglogical_destroy_relmetacache g)
        = pglogical_destroy_relmetacache g := by
  refine ⟨?_, ?_, ?_, ?_⟩
  · unfold pglogical_prune_global
    cases h : g.RelMetaCache <;> simp [h]
  · simp [pglogical_prune_global, destroy_RelMetaCache g]
  · intro relid
    exact callback_of_unbound _ relid (destroy_RelMetaCache g)
  · exact destroy_of_unbound _ (destroy_RelMetaCache g)

/-- Claim C7 as stated is false: the counterexample shows the teardown trace
from a bound state contains an intermediate step in which the global handle is
still bound while the store has already been destroyed — line 174 runs
`hash_destroy` before line 175 clears `RelMetaCache`. -/
theorem claim_C7_counterexample :
    ¬ (∀ s ∈ pglogical_destroy_trace
          { RelMetaCache := some [], callback_registered := true,
            host_registrations := 1 },
        ¬ (s.handleBound = true ∧ s.storeDestroyed = true)) := by
  decide

/-- Claim C7 amended: in teardown from a bound state the store is destroyed
strictly before the handle is unbound (so one intermediate step has the bound
handle pointing at the destroyed store), and at completion the handle is
unbound, so any notification delivered after teardown observes no session and
changes nothing. -/
theorem claim_C7 (g : GlobalState) (tab : HTAB)
    (h : g.RelMetaCache = some tab) :
    pglogical_destroy_trace g
        = [⟨true, false⟩, ⟨true, true⟩, ⟨false, true⟩] ∧
    (pglogical_destroy_trace g).getLast? = some ⟨false, true⟩ ∧
    (pglogical_destroy_relmetacache g).RelMetaCache = none ∧
    (∀ relid, relmeta_cache_callback (pglogical_destroy_relmetacache g) relid
        = pglogical_destroy_relmetacache g) := by
  refine ⟨?_, ?_, destroy_RelMetaCache g, ?_⟩
  · simp [pglogical_destroy_trace, h]
  · simp [pglogical_destroy_trace, h]
  · intro relid
    exact callback_of_unbound _ relid (destroy_RelMetaCache g)

/-- Witness for C7 (amended) at a concrete bound state. -/
theorem claim_C7_witness :
    ({ RelMetaCache := some [⟨1, true, true⟩], callback_registered := true,
       host_registrations := 1 } : GlobalState).RelMetaCache
        = some [⟨1, true, true⟩] ∧
    (pglogical_destroy_trace
        { RelMetaCache := some [⟨1, true, true⟩], callback_registered := true,
          host_registrations := 1 }
        = [⟨true, false⟩, ⟨true, true⟩, ⟨false, true⟩] ∧
     (pglogical_destroy_trace
        { RelMetaCache := some [⟨1, true, true⟩], callback_registered := true,
          host_registrations := 1 }).getLast? = some ⟨false, true⟩ ∧
     (pglogical_destroy_relmetacache
        { RelMetaCache := some [⟨1, true, true⟩], callback_registered := true,
          host_registrations := 1 }).RelMetaCache = none ∧
     (∀ relid, relmeta_cache_callback
        (pglogical_destroy_relmetacache
          { RelMetaCache := some [⟨1, true, true⟩], callback_registered := true,
            host_registrations := 1 }) relid
        = pglogical_destroy_relmetacache
            { RelMetaCache := some [⟨1, true, true⟩], callback_registered := true,
              host_registrations := 1 })) :=
  ⟨rfl, claim_C7 _ [⟨1, true, true⟩] rfl⟩

/-- Claim C8: when the sweep loop is about to visit an invalid entry whose key
the `HASH_REMOVE` lookup does not resolve, it raises the fatal
`elog(ERROR, "hash table corrupted")` (lines 197-200) instead of silently
continuing with the remaining entries. -/
theorem claim_C8 (tab : HTAB) (e : PGLRelMetaCacheEntry)
    (es : List PGLRelMetaCacheEntry)
    (h1 : e.is_valid = false) (h2 : hash_find tab e.relid = none) :
    prune_loop tab (e :: es) = Except.error "hash table corrupted" := by
  simp [prune_loop, prune_step, h1, h2]

/-- Witness for C8: a visited invalid entry missing from the table aborts the
sweep with the fatal error. -/
theorem claim_C8_witness :
    ((⟨5, true, false⟩ : PGLRelMetaCacheEntry).is_valid = false ∧
     hash_find [] (⟨5, true, false⟩ : PGLRelMetaCacheEntry).relid = none) ∧
    prune_loop [] [⟨5, true, false⟩, ⟨6, true, true⟩]
      = Except.error "hash table corrupted" :=
  ⟨⟨rfl, rfl⟩, claim_C8 [] ⟨5, true, false⟩ [⟨6, true, true⟩] rfl rfl⟩

/-- Marking an entry invalid neither inserts nor removes entries. -/
lemma set_invalid_length (tab : HTAB) (relid : Oid) :
    (set_invalid tab relid).length = tab.length := by
  induction tab with
  | nil => rfl
  | cons e es ih =>
      by_cases h : e.relid = relid <;> simp [set_invalid, h, ih]

/-- Pointwise effect of the invalidation write: each position either holds the
old entry unchanged, or held an entry keyed by the notified id and now holds
that same entry with only `is_valid` flipped to `false`. -/
lemma set_invalid_getElem (tab : HTAB) (relid : Oid) (i : Nat) :
    (set_invalid tab relid)[i]? = tab[i]? ∨
    ∃ e, tab[i]? = some e ∧ e.relid = relid ∧
         (set_invalid tab relid)[i]? = some { e with is_valid := false } := by
  induction tab generalizing i with
  | nil => exact Or.inl rfl
  | cons e es ih =>
      by_cases h : e.relid = relid
      · cases i with
        | zero => exact Or.inr ⟨e, by simp, h, by simp [set_invalid, h]⟩
        | succ j => exact Or.inl (by simp [set_invalid, h])
      · cases i with
        | zero => exact Or.inl (by simp [set_invalid, h])
        | succ j => simpa [set_invalid, h] using ih j

/-- The invalidation write commutes with any rewriting of the `is_cached`
fields: the callback's behaviour does not depend on (it never reads) the
`is_cached` flags. -/
lemma set_invalid_map_is_cached (tab : HTAB) (relid : Oid) (b : Oid → Bool) :
    set_invalid (tab.map (fun e => { e with is_cached := b e.relid })) relid
      = (set_invalid tab relid).map
          (fun e => { e with is_cached := b e.relid }) := by
  induction tab with
  | nil => rfl
  | cons e es ih =>
      by_cases h : e.relid = relid <;> simp [set_invalid, h, ih]

/-- Claim C4: a delivered notification changes nothing but possibly the
`valid` flag of entries keyed by the notified id: the store stays bound, no
entry is added or removed (same length, positions preserved), every entry at a
position holding a different id is unchanged in every field, `is_cached`
(`metadata_sent`) is never written at any position, and the write is
insensitive to the `is_cached` values (they are never read). -/
theorem claim_C4 (g : GlobalState) (tab : HTAB) (relid : Oid)
    (h : g.RelMetaCache = some tab) :
    ∃ tab2,
      relmeta_cache_callback g relid = { g with RelMetaCache := some tab2 } ∧
      tab2.length = tab.length ∧
      (∀ i : Nat,
        tab2[i]? = tab[i]? ∨
        ∃ e, tab[i]? = some e ∧ e.relid = relid ∧
             tab2[i]? = some { e with is_valid := false }) ∧
      (∀ b : Oid → Bool,
        set_invalid (tab.map (fun e => { e with is_cached := b e.relid })) relid
          = (set_invalid tab relid).map
              (fun e => { e with is_cached := b e.relid })) := by
  cases hf : hash_find tab relid with
  | none =>
      refine ⟨tab, ?_, rfl, fun i => Or.inl rfl,
        fun b => set_invalid_map_is_cached tab relid b⟩
      have hcb : relmeta_cache_callback g relid = g := by
        simp [relmeta_cache_callback, h, hf]
      rw [hcb]
      cases g
      simp_all
  | some e0 =>
      refine ⟨set_invalid tab relid, ?_, set_invalid_length tab relid,
        fun i => set_invalid_getElem tab relid i,
        fun b => set_invalid_map_is_cached tab relid b⟩
      simp [relmeta_cache_callback, h, hf]

/-- Witness for C4 on a concrete two-entry store. -/
theorem claim_C4_witness :
    ({ RelMetaCache := some [⟨1, true, true⟩, ⟨2, false, true⟩],
       callback_registered := true, host_registrations := 1 } :
        GlobalState).RelMetaCache = some [⟨1, true, true⟩, ⟨2, false, true⟩] ∧
    (∃ tab2,
      relmeta_cache_callback
          { RelMetaCache := some [⟨1, true, true⟩, ⟨2, false, true⟩],
            callback_registered := true, host_registrations := 1 } 1
        = { RelMetaCache := some tab2,
            callback_registered := true, host_registrations := 1 } ∧
      tab2.length = ([⟨1, true, true⟩, ⟨2, false, true⟩] : HTAB).length ∧
      (∀ i : Nat,
        tab2[i]? = ([⟨1, true, true⟩, ⟨2, false, true⟩] : HTAB)[i]? ∨
        ∃ e, ([⟨1, true, true⟩, ⟨2, false, true⟩] : HTAB)[i]? = some e ∧
             e.relid = 1 ∧ tab2[i]? = some { e with is_valid := false }) ∧
      (∀ b : Oid → Bool,
        set_invalid (([⟨1, true, true⟩, ⟨2, false, true⟩] : HTAB).map
            (fun e => { e with is_cached := b e.relid })) 1
          = (set_invalid ([⟨1, true, true⟩, ⟨2, false, true⟩] : HTAB) 1).map
              (fun e => { e with is_cached := b e.relid }))) :=
  ⟨rfl, claim_C4 _ [⟨1, true, true⟩, ⟨2, false, true⟩] 1 rfl⟩

/-- The operations the surrounding plugin can invoke on the process-wide
state across decoding sessions: session start (`pglogical_init_relmetacache`),
session teardown (`pglogical_destroy_relmetacache`), and a relcache
invalidation delivery (`relmeta_cache_callback`). -/
inductive SessionOp where
  | start : SessionOp
  | teardown : SessionOp
  | notify : Oid → SessionOp
deriving Repr, DecidableEq

/-- Apply one operation to the process-wide state. -/
def runOp (g : GlobalState) : SessionOp → GlobalState
  | SessionOp.start => pglogical_init_relmetacache g
  | SessionOp.teardown => pglogical_destroy_relmetacache g
  | SessionOp.notify relid => relmeta_cache_callback g relid

/-- Apply a sequence of operations, oldest first. -/
def runOps (g : GlobalState) (ops : List SessionOp) : GlobalState :=
  ops.foldl runOp g

/-- The state at process start: no table bound, callback not registered, no
registrations recorded by the host. -/
def processStart : GlobalState :=
  { RelMetaCache := none, callback_registered := false,
    host_registrations := 0 }

lemma runOps_nil (g : GlobalState) : runOps g [] = g := rfl

lemma runOps_cons (g : GlobalState) (op : SessionOp) (ops : List SessionOp) :
    runOps g (op :: ops) = runOps (runOp g op) ops := rfl

/-- A delivered notification never touches the registration flag or count. -/
lemma callback_preserves_registration (g : GlobalState) (relid : Oid) :
    (relmeta_cache_callback g relid).callback_registered
        = g.callback_registered ∧
    (relmeta_cache_callback g relid).host_registrations
        = g.host_registrations := by
  unfold relmeta_cache_callback
  cases g.RelMetaCache with
  | none => exact ⟨rfl, rfl⟩
  | some tab => cases hf : hash_find tab relid <;> simp [hf]

/-- Session start always leaves the registration flag set. -/
lemma init_sets_flag (g : GlobalState) :
    (pglogical_init_relmetacache g).callback_registered = true := by
  unfold pglogical_init_relmetacache
  by_cases hc : g.callback_registered <;> simp [hc]

/-- No operation ever clears the registration flag. -/
lemma runOp_flag_mono (g : GlobalState) (op : SessionOp)
    (h : g.callback_registered = true) :
    (runOp g op).callback_registered = true := by
  cases op with
  | start => exact init_sets_flag g
  | teardown =>
      show (pglogical_destroy_relmetacache g).callback_registered = true
      rw [(destroy_preserves_registration g).1]
      exact h
  | notify relid =>
      show (relmeta_cache_callback g relid).callback_registered = true
      rw [(callback_preserves_registration g relid).1]
      exact h

lemma runOps_flag_mono (ops : List SessionOp) :
    ∀ g : GlobalState, g.callback_registered = true →
      (runOps g ops).callback_registered = true := by
  induction ops with
  | nil => intro g h; exact h
  | cons op rest ih =>
      intro g h
      rw [runOps_cons]
      exact ih _ (runOp_flag_mono g op h)

/-- The host's registration count always equals one when the flag is set and
zero otherwise: the flag-guarded `CacheRegisterRelcacheCallback` call on lines
88-92 is the only registration site. -/
lemma runOp_registration_inv (g : GlobalState) (op : SessionOp)
    (h : g.host_registrations = if g.callback_registered then 1 else 0) :
    (runOp g op).host_registrations
        = if (runOp g op).callback_registered then 1 else 0 := by
  cases op with
  | start =>
      simp only [runOp]
      by_cases hc : g.callback_registered = true <;> simp [hc] at h <;>
        simp [pglogical_init_relmetacache, hc, h]
  | teardown =>
      simp only [runOp, (destroy_preserves_registration g).1,
        (destroy_preserves_registration g).2]
      exact h
  | notify relid =>
      simp only [runOp, (callback_preserves_registration g relid).1,
        (callback_preserves_registration g relid).2]
      exact h

lemma runOps_registration_inv (ops : List SessionOp) :
    ∀ g : GlobalState,
      g.host_registrations = (if g.callback_registered then 1 else 0) →
      (runOps g ops).host_registrations
          = (if (runOps g ops).callback_registered then 1 else 0) := by
  induction ops with
  | nil => intro g h; exact h
  | cons op rest ih =>
      intro g h
      rw [runOps_cons]
      exact ih _ (runOp_registration_inv g op h)

/-- Once some operation in the sequence was a session start, the flag is set
at the end. -/
lemma runOps_flag_of_start (ops : List SessionOp) :
    ∀ g : GlobalState, SessionOp.start ∈ ops →
      (runOps g ops).callback_registered = true := by
  induction ops with
  | nil => intro g h; cases h
  | cons op rest ih =>
      intro g h
      rw [runOps_cons]
      rcases List.mem_cons.mp h with h1 | h2
      · cases h1
        exact runOps_flag_mono rest _ (init_sets_flag g)
      · exact ih _ h2

/-- Claim C5: across any sequence of session starts, teardowns and delivered
notifications from process start, as soon as at least one session has started
the host holds exactly one registration of the listener (the first start
registered it); moreover a start on a state whose flag is already set leaves
the registration state unchanged — a second `pglogical_init_relmetacache` is a
registration no-op. -/
theorem claim_C5 :
    (∀ ops : List SessionOp, SessionOp.start ∈ ops →
        (runOps processStart ops).host_registrations = 1 ∧
        (runOps processStart ops).callback_registered = true) ∧
    (∀ g : GlobalState, g.callback_registered = true →
        (pglogical_init_relmetacache g).host_registrations
            = g.host_registrations ∧
        (pglogical_init_relmetacache g).callback_registered = true) := by
  constructor
  · intro ops hmem
    have hflag := runOps_flag_of_start ops processStart hmem
    have hinv := runOps_registration_inv ops processStart rfl
    rw [hflag] at hinv
    simp only [if_pos] at hinv
    exact ⟨hinv, hflag⟩
  · intro g hc
    unfold pglogical_init_relmetacache
    simp [hc]

/-- Witness for C5: two session starts with a teardown in between leave
exactly one registration. -/
theorem claim_C5_witness :
    (SessionOp.start ∈
        [SessionOp.start, SessionOp.teardown, SessionOp.start]) ∧
    ((runOps processStart
        [SessionOp.start, SessionOp.teardown, SessionOp.start]).host_registrations
          = 1 ∧
     (runOps processStart
        [SessionOp.start, SessionOp.teardown,
          SessionOp.start]).callback_registered = true) :=
  ⟨by decide, claim_C5.1 [SessionOp.start, SessionOp.teardown, SessionOp.start]
      (by decide)⟩

/-- Lookup skips a prefix containing no entry for the key. -/
lemma hash_find_append (acc tail : HTAB) (r : Oid)
    (h : ∀ a ∈ acc, a.relid ≠ r) :
    hash_find (acc ++ tail) r = hash_find tail r := by
  induction acc with
  | nil => rfl
  | cons a as ih =>
      have ha : a.relid ≠ r := h a (by simp)
      rw [List.cons_append]
      simp only [hash_find, if_neg ha]
      exact ih (fun x hx => h x (by simp [hx]))

/-- Removal skips a prefix containing no entry for the key. -/
lemma hash_remove_append (acc tail : HTAB) (r : Oid)
    (h : ∀ a ∈ acc, a.relid ≠ r) :
    hash_remove (acc ++ tail) r = acc ++ hash_remove tail r := by
  induction acc with
  | nil => rfl
  | cons a as ih =>
      have ha : a.relid ≠ r := h a (by simp)
      rw [List.cons_append, List.cons_append]
      simp only [hash_remove, if_neg ha]
      rw [ih (fun x hx => h x (by simp [hx]))]

lemma hash_find_cons_self (e : PGLRelMetaCacheEntry) (es : HTAB) :
    hash_find (e :: es) e.relid = some e := by
  simp [hash_find]

lemma hash_remove_cons_self (e : PGLRelMetaCacheEntry) (es : HTAB) :
    hash_remove (e :: es) e.relid = es := by
  simp [hash_remove]

/-- In a table with unique keys, no entry of the prefix shares the key of the
entry at the split point. -/
lemma keysNodup_prefix_ne (acc es : HTAB) (e : PGLRelMetaCacheEntry)
    (h : keysNodup (acc ++ e :: es)) : ∀ a ∈ acc, a.relid ≠ e.relid := by
  intro a ha heq
  unfold keysNodup at h
  rw [List.map_append] at h
  rcases List.nodup_append.mp h with ⟨_, _, hdisj⟩
  exact hdisj (List.mem_map_of_mem _ ha) (by simp [heq])

/-- Dropping the entry at the split point preserves key uniqueness. -/
lemma keysNodup_drop_mid (acc es : HTAB) (e : PGLRelMetaCacheEntry)
    (h : keysNodup (acc ++ e :: es)) : keysNodup (acc ++ es) := by
  unfold keysNodup at h ⊢
  refine List.Nodup.sublist ?_ h
  exact List.Sublist.map _
    (List.Sublist.append_left (List.sublist_cons_self e es) acc)

/-- Invariant of the prune loop: with the already-visited survivors `acc` in
front and the not-yet-visited snapshot suffix `es` behind, the loop removes
exactly the invalid entries of `es` and keeps everything else untouched. -/
lemma prune_loop_eq_filter (es : List PGLRelMetaCacheEntry) :
    ∀ acc : HTAB, keysNodup (acc ++ es) →
      prune_loop (acc ++ es) es
        = Except.ok (acc ++ es.filter (fun e => e.is_valid)) := by
  induction es with
  | nil => intro acc h; simp [prune_loop]
  | cons e es ih =>
      intro acc h
      have hacc := keysNodup_prefix_ne acc es e h
      cases hv : e.is_valid with
      | true =>
          have hstep : prune_step (acc ++ e :: es) e
              = Except.ok (acc ++ e :: es) := by
            simp [prune_step, hv]
          have hloop : prune_loop (acc ++ e :: es) (e :: es)
              = prune_loop (acc ++ e :: es) es := by
            simp [prune_loop, hstep]
          have heq : acc ++ e :: es = (acc ++ [e]) ++ es := by simp
          rw [hloop, heq, ih (acc ++ [e]) (heq ▸ h)]
          simp [hv]
      | false =>
          have hfind : hash_find (acc ++ e :: es) e.relid = some e := by
            rw [hash_find_append acc _ _ hacc]
            exact hash_find_cons_self e es
          have hrem : hash_remove (acc ++ e :: es) e.relid = acc ++ es := by
            rw [hash_remove_append acc _ _ hacc]
            rw [hash_remove_cons_self]
          have hstep : prune_step (acc ++ e :: es) e
              = Except.ok (acc ++ es) := by
            simp [prune_step, hv, hfind, hrem]
          have hloop : prune_loop (acc ++ e :: es) (e :: es)
              = prune_loop (acc ++ es) es := by
            simp [prune_loop, hstep]
          rw [hloop, ih acc (keysNodup_drop_mid acc es e h)]
          simp [hv]

/-- Claim C3: on a table with unique keys (dynahash's invariant), the sweep
succeeds and leaves exactly the valid entries: no invalid entry remains, and
every entry that was valid at sweep start is still present with all fields
(`relid`, `is_valid`, `is_cached`) unchanged. -/
theorem claim_C3 (tab : HTAB) (h : keysNodup tab) :
    ∃ tab2,
      pglogical_prune_relmetacache tab = Except.ok tab2 ∧
      tab2 = tab.filter (fun e => e.is_valid) ∧
      (∀ e ∈ tab2, e.is_valid = true) ∧
      (∀ e ∈ tab, e.is_valid = true → e ∈ tab2) := by
  refine ⟨tab.filter (fun e => e.is_valid), ?_, rfl, ?_, ?_⟩
  · have hmain := prune_loop_eq_filter tab [] h
    simpa [pglogical_prune_relmetacache] using hmain
  · intro e he
    exact (List.mem_filter.mp he).2
  · intro e he hv
    exact List.mem_filter.mpr ⟨he, hv⟩

/-- Witness for C3 on a concrete mixed table: the invalid entry for id 2 is
pruned, the valid sent entry for id 1 and the valid unsent entry for id 3
survive unchanged. -/
theorem claim_C3_witness :
    keysNodup [⟨1, true, true⟩, ⟨2, true, false⟩, ⟨3, false, true⟩] ∧
    (∃ tab2,
      pglogical_prune_relmetacache
          [⟨1, true, true⟩, ⟨2, true, false⟩, ⟨3, false, true⟩]
        = Except.ok tab2 ∧
      tab2 = ([⟨1, true, true⟩, ⟨2, true, false⟩, ⟨3, false, true⟩] :
          HTAB).filter (fun e => e.is_valid) ∧
      (∀ e ∈ tab2, e.is_valid = true) ∧
      (∀ e ∈ ([⟨1, true, true⟩, ⟨2, true, false⟩, ⟨3, false, true⟩] : HTAB),
          e.is_valid = true → e ∈ tab2)) :=
  ⟨by decide, claim_C3 [⟨1, true, true⟩, ⟨2, true, false⟩, ⟨3, false, true⟩]
      (by decide)⟩

end PGLRelMeta
